import Mathlib

/-!
Verification of the resumable multi-worker folder-sharing engine
(`monitor_share.js`) against its natural-language specification.

Modelling conventions, used throughout:
* JavaScript strings are modelled as `List Char` (`Str`); `substring`,
  `includes`, `trim`, `toLowerCase`, regex replaces are modelled as the
  corresponding list transformations.
* JavaScript numbers holding counters are modelled as exact integers
  (`Int`); `Math.floor` of a quotient is `Int.fdiv` (floor division).
* A JavaScript plain object used as a dictionary is an association list
  `List (Str × Str)` in insertion order (`Object.entries` order).
* JavaScript truthiness on strings: the empty string is falsy, every
  other string is truthy.
-/

/-- JavaScript strings, modelled as lists of characters. -/
abbrev Str := List Char

/-- The whitespace class of JavaScript's `\s` and `String.prototype.trim`
(space, tab, line terminators, and the common Unicode space separators). -/
def isJsWs (c : Char) : Bool :=
  c.toNat = 0x20 || c.toNat = 0x09 || c.toNat = 0x0A || c.toNat = 0x0D ||
  c.toNat = 0x0B || c.toNat = 0x0C || c.toNat = 0xA0 || c.toNat = 0x1680 ||
  (0x2000 ≤ c.toNat && c.toNat ≤ 0x200A) || c.toNat = 0x2028 ||
  c.toNat = 0x2029 || c.toNat = 0x202F || c.toNat = 0x205F ||
  c.toNat = 0x3000 || c.toNat = 0xFEFF

/-- Model of `String.prototype.toLowerCase`, restricted to ASCII case mapping. -/
def toLowerL (s : Str) : Str := s.map Char.toLower

/-- Model of `String.prototype.trim`: drop leading and trailing whitespace. -/
def trimL (s : Str) : Str :=
  ((s.dropWhile isJsWs).reverse.dropWhile isJsWs).reverse

/-- Helper for `collapseWs`: the boolean records whether the previous
character was whitespace (so a run contributes a single space). -/
def collapseWsAux : Bool → Str → Str
  | _, [] => []
  | prevWs, c :: rest =>
    if isJsWs c then
      if prevWs then collapseWsAux true rest
      else ' ' :: collapseWsAux true rest
    else c :: collapseWsAux false rest

/-- Model of `replace(/\s+/g, ' ')`: collapse every run of whitespace to one space. -/
def collapseWs (s : Str) : Str := collapseWsAux false s

/-- Whether `a` begins with `b` (character-wise). -/
def leadEq : Str → Str → Bool
  | [], _ => true
  | _ :: _, [] => false
  | a :: as, b :: bs => a == b && leadEq as bs

/-- Model of `hay.includes(needle)`: `needle` occurs contiguously inside `hay`. -/
def containsSub (hay needle : Str) : Bool :=
  match hay with
  | [] => needle.isEmpty
  | _ :: t => leadEq needle hay || containsSub t needle

/-- The folder map `scanResults`: association list from normalized folder
name to folder id, in `Object.entries` iteration order. -/
abbrev FolderMap := List (Str × Str)

/-- Model of `this.scanResults[k]`: property read on the dictionary object. -/
def jsGet (m : FolderMap) (k : Str) : Option Str :=
  (m.find? (fun e => e.1 == k)).map (·.2)

/-- JavaScript truthiness of `scanResults[k]` (a string or `undefined`):
`undefined` and the empty string are falsy. -/
def strTruthy : Option Str → Bool
  | none => false
  | some v => !v.isEmpty

/-- The substring scan of `findFolderIdForParticipant`: first entry whose
re-normalized key contains the query or is contained in it. -/
def stage3Scan : FolderMap → Str → Option Str
  | [], _ => none
  | (folderName, folderId) :: rest, q =>
    let folderNameClean := trimL (toLowerL folderName)
    if containsSub folderNameClean q || containsSub q folderNameClean then
      some folderId
    else stage3Scan rest q

/-- Model of `findFolderIdForParticipant(participantNama)` from `monitor_share.js`:
exact lookup of the lower-cased trimmed name, then lookup of the
whitespace-collapsed form, then the bidirectional substring scan; the two
direct lookups fall through when the stored value is falsy (`if (this.scanResults[x])`). -/
def findFolderIdForParticipant (m : FolderMap) (participantNama : Str) : Option Str :=
  let namaLower := trimL (toLowerL participantNama)
  let s1 := jsGet m namaLower
  if strTruthy s1 then s1
  else
    let namaClean := collapseWs namaLower
    let s2 := jsGet m namaClean
    if strTruthy s2 then s2
    else stage3Scan m namaClean

/-- The matcher as claim C4 words it: the result of the first of three
ordered stages, where stages 1 and 2 are plain lookups (no truthiness
proviso on the stored value). -/
def findFolderIdSpec (m : FolderMap) (participantNama : Str) : Option Str :=
  let q := trimL (toLowerL participantNama)
  match jsGet m q with
  | some v => some v
  | none =>
    let q2 := collapseWs q
    match jsGet m q2 with
    | some v => some v
    | none => stage3Scan m q2

/-- Stage 3 written declaratively with `List.find?`. -/
def stage3Find (m : FolderMap) (q : Str) : Option Str :=
  (m.find? (fun e =>
    containsSub (trimL (toLowerL e.1)) q || containsSub q (trimL (toLowerL e.1)))).map (·.2)

/-- A direct lookup that also misses on a falsy (empty-string) value. -/
def truthyLookup (m : FolderMap) (k : Str) : Option Str :=
  match jsGet m k with
  | some v => if v.isEmpty then none else some v
  | none => none

/-- The matcher as amended for claim C4: stages 1 and 2 return only a
truthy (non-empty) stored value, and otherwise fall through. -/
def findFolderIdSpecAmended (m : FolderMap) (participantNama : Str) : Option Str :=
  let q := trimL (toLowerL participantNama)
  let q2 := collapseWs q
  match truthyLookup m q with
  | some v => some v
  | none =>
    match truthyLookup m q2 with
    | some v => some v
    | none => stage3Find m q2

/-- The aggregate progress counters (`this.progressStats`). -/
structure Counters where
  total : Int
  processed : Int
  successful : Int
  failed : Int
  errors : Int
  activeWorkers : Int
deriving DecidableEq, Repr

/-- Model of `validateProgressStats()` from `monitor_share.js`, applied to the
counters with `workerCount` the pool size: clamp `processed` from above to
`total`; if `successful + failed` exceeds the (clamped) `processed`, scale
both down by the floor of the proportional ratio; clamp `successful`,
`failed`, `errors` to be non-negative; clamp `activeWorkers` into
`[0, workerCount]`.  Exact-integer model of the JS number arithmetic. -/
def validateProgressStats (workerCount : Int) (c0 : Counters) : Counters :=
  let c1 := if c0.processed > c0.total then { c0 with processed := c0.total } else c0
  let totalCompleted := c1.successful + c1.failed
  let c2 :=
    if totalCompleted > c1.processed then
      { c1 with
        successful := Int.fdiv (c1.successful * c1.processed) totalCompleted
        failed := Int.fdiv (c1.failed * c1.processed) totalCompleted }
    else c1
  let c3 := { c2 with
    successful := max 0 c2.successful
    failed := max 0 c2.failed
    errors := max 0 c2.errors }
  { c3 with activeWorkers := max 0 (min c3.activeWorkers workerCount) }

/-- The counter-validation step as amended for claim C5, written as one
declarative record: `processed` is clamped only from above (`min` with
`total`), the proportional scaling uses that upper-clamped value and runs
before the non-negativity clamps. -/
def validateSpecAmended (workerCount : Int) (c : Counters) : Counters :=
  let p1 := min c.processed c.total
  let tc := c.successful + c.failed
  { total := c.total
    processed := p1
    successful := max 0 (if p1 < tc then Int.fdiv (c.successful * p1) tc else c.successful)
    failed := max 0 (if p1 < tc then Int.fdiv (c.failed * p1) tc else c.failed)
    errors := max 0 c.errors
    activeWorkers := max 0 (min c.activeWorkers workerCount) }

/-- A recipient record from `cache_peserta.json` (`participants` entries),
with the fields the engine reads. -/
structure Participant where
  row : Int
  nama : Str
  email : Str
  isShared : Bool
  lastLog : Str
deriving DecidableEq, Repr

/-- Model of `` `${participant.nama}|${participant.email}` ``: the processed-key of a
recipient (`isParticipantProcessed` / `markParticipantProcessed`). -/
def keyOf (p : Participant) : Str := p.nama ++ '|' :: p.email

/-- A task pushed on `this.taskQueue`. -/
structure ShareTask where
  folderId : Str
  email : Str
  participant : Participant
deriving DecidableEq, Repr

/-- An entry of `this.shareResults`.  Optional JS fields that may be
`undefined` are modelled by the empty string (falsy). -/
structure ShareResult where
  success : Bool
  error : Str
  participant : Participant
  folderId : Option Str
  issueType : Str
  details : Str
  status : Str
  timestamp : Str
deriving DecidableEq, Repr

/-- A pending cell write: the template string
`` `Form Response 1!<col><row>` `` is modelled as the (column, row) pair. -/
structure CellUpdate where
  col : Char
  row : Int
  value : Str
deriving DecidableEq, Repr

/-- Model of `Set.prototype.add` on the processed-keys set, modelled on an
insertion-ordered duplicate-free list. -/
def insertKey (s : List Str) (k : Str) : List Str :=
  if s.contains k then s else s ++ [k]

/-- The coordinator-owned mutable state touched by the build loop and the
worker-outcome handler. -/
structure BuildState where
  stats : Counters
  taskQueue : List ShareTask
  shareResults : List ShareResult
  batchUpdates : List CellUpdate
  processedParticipants : List Str
deriving DecidableEq, Repr

/-- The `ShareResult` recorded for a recipient without a folder
(`processWithWorkers`, pre-dispatch branch). -/
def noFolderResult (p : Participant) (ts : Str) : ShareResult :=
  { success := false
    error := "Folder ID not found".toList
    participant := p
    folderId := none
    issueType := "NO_FOLDER".toList
    details := ("No matching folder found for name: \"".toList ++ p.nama ++
      "\". Check if folder name matches participant name exactly.".toList)
    status := "PENDING".toList
    timestamp := ts }

/-- One iteration of the task-queue build loop in `processWithWorkers`:
a falsy folder id records a `NO_FOLDER` issue (result, counters plus
validation, two cell updates); a truthy one enqueues a task.  `ts` is the
timestamp the iteration stamps. -/
def buildStep (workerCount : Int) (m : FolderMap) (ts : Str)
    (st : BuildState) (p : Participant) : BuildState :=
  let folderId := findFolderIdForParticipant m p.nama
  if strTruthy folderId then
    { st with taskQueue := st.taskQueue ++ [⟨folderId.getD [], p.email, p⟩] }
  else
    { st with
      shareResults := st.shareResults ++ [noFolderResult p ts]
      stats := validateProgressStats workerCount
        { st.stats with
          processed := st.stats.processed + 1
          errors := st.stats.errors + 1 }
      batchUpdates := st.batchUpdates ++
        [⟨'I', p.row, "FALSE".toList⟩,
         ⟨'J', p.row, "Issue: No folder found - ".toList ++ ts⟩] }

/-- The whole build loop over the to-do list. -/
def buildPhase (workerCount : Int) (m : FolderMap) (ts : Str)
    (st : BuildState) (ps : List Participant) : BuildState :=
  ps.foldl (buildStep workerCount m ts) st

/-- The to-do filter at the top of `processWithWorkers`: drop recipients
already shared in the sheet and recipients whose key is in the
processed-keys set. -/
def filterParticipants (cached : List Participant) (s : List Str) : List Participant :=
  cached.filter (fun p => !p.isShared && !(s.contains (keyOf p)))

/-- The payload a worker sends back with a `success` or `error` message. -/
structure WorkerResult where
  success : Bool
  participant : Participant
  folderId : Str
  error : Str
deriving DecidableEq, Repr

/-- The `ShareResult` the coordinator appends for a worker outcome
(`result.timestamp = new Date().toISOString(); this.shareResults.push(result)`). -/
def outcomeResult (r : WorkerResult) (ts : Str) : ShareResult :=
  { success := r.success
    error := r.error
    participant := r.participant
    folderId := some r.folderId
    issueType := []
    details := []
    status := []
    timestamp := ts }

/-- The coordinator's handling of a `success` or `error` worker message
(`handleWorkerMessage`): append the stamped result, bump the counters
(`successful` on success, `failed` on error), decrement `activeWorkers`,
validate, mark the recipient's key processed, and append the two cell
updates for its row. -/
def handleWorkerResult (workerCount : Int) (r : WorkerResult) (ts : Str)
    (st : BuildState) : BuildState :=
  if r.success then
    { st with
      shareResults := st.shareResults ++ [outcomeResult r ts]
      stats := validateProgressStats workerCount
        { st.stats with
          processed := st.stats.processed + 1
          successful := st.stats.successful + 1
          activeWorkers := st.stats.activeWorkers - 1 }
      processedParticipants := insertKey st.processedParticipants (keyOf r.participant)
      batchUpdates := st.batchUpdates ++
        [⟨'I', r.participant.row, "TRUE".toList⟩,
         ⟨'J', r.participant.row, ts⟩] }
  else
    { st with
      shareResults := st.shareResults ++ [outcomeResult r ts]
      stats := validateProgressStats workerCount
        { st.stats with
          processed := st.stats.processed + 1
          failed := st.stats.failed + 1
          activeWorkers := st.stats.activeWorkers - 1 }
      processedParticipants := insertKey st.processedParticipants (keyOf r.participant)
      batchUpdates := st.batchUpdates ++
        [⟨'I', r.participant.row, "FALSE".toList⟩,
         ⟨'J', r.participant.row, "Failed: ".toList ++ ts⟩] }

/-- A parsed history file (`monitor_share_history.json`) with the fields
`loadProcessingHistory` reads. -/
structure HistorySnapshot where
  processedParticipants : List Str
  shareResults : List ShareResult
  batchUpdates : List CellUpdate
  progressStats : Counters
deriving DecidableEq, Repr

/-- The acceptance test `loadProcessingHistory` applies to the snapshot's
counters ("Only load stats if they make sense"). -/
def acceptStats (c : Counters) : Bool :=
  decide (c.total > 0) && decide (c.processed ≥ 0) &&
  decide (c.processed ≤ c.total) && decide (c.successful ≥ 0) &&
  decide (c.failed ≥ 0) && decide (c.successful + c.failed ≤ c.processed)

/-- All-zero counters (the reset the loader falls back to). -/
def zeroCounters : Counters := ⟨0, 0, 0, 0, 0, 0⟩

/-- What `loadProcessingHistory` leaves in the engine after reading a
snapshot: the processed-keys set (`new Set(array)`, which de-duplicates),
the share-result list and batch updates are taken unconditionally; the
counters only when they pass `acceptStats`, otherwise reset to zero. -/
def loadProcessingHistory (h : HistorySnapshot) : BuildState :=
  { stats := if acceptStats h.progressStats then h.progressStats else zeroCounters
    taskQueue := []
    shareResults := h.shareResults
    batchUpdates := h.batchUpdates
    processedParticipants := h.processedParticipants.foldl insertKey [] }

/-- The rejection condition as claim C6 words it: `processed > total`, or
`successful + failed > processed`, or any counter is negative. -/
def claimRejectC6 (c : Counters) : Bool :=
  decide (c.processed > c.total) ||
  decide (c.successful + c.failed > c.processed) ||
  decide (c.total < 0) || decide (c.processed < 0) ||
  decide (c.successful < 0) || decide (c.failed < 0) ||
  decide (c.errors < 0) || decide (c.activeWorkers < 0)

/-- The start of `processWithWorkers` on a resumed state: compute the
to-do list, overwrite `total` with its length, then run the build loop. -/
def processPhase (workerCount : Int) (m : FolderMap) (ts : Str)
    (cached : List Participant) (st : BuildState) : BuildState :=
  let participantsToProcess := filterParticipants cached st.processedParticipants
  buildPhase workerCount m ts
    { st with stats := { st.stats with total := (participantsToProcess.length : Int) } }
    participantsToProcess

/-- Status of a worker slot in `this.workerStats`. -/
inductive WorkerStatus
  | idle
  | working
  | error
deriving DecidableEq, Repr

/-- The worker-status array as the constructor builds it
(`this.workerStats = Array(this.workerCount).fill(null).map(... status: 'idle' ...)`):
every slot starts with status `idle`. -/
def initialWorkerStats (workerCount : Nat) : List WorkerStatus :=
  List.replicate workerCount WorkerStatus.idle

/-- Model of `this.workerStats.filter(w => w.status === 'idle').length` inside the
`checkInitialization` poll of `initializeWorkers`. -/
def initializedWorkers (statuses : List WorkerStatus) : Nat :=
  (statuses.filter (fun w => w == WorkerStatus.idle)).length

/-- The resolve condition of the promise returned by `initializeWorkers`,
as a function of the statuses the poll reads: the count of `idle` slots
equals `workerCount`.  There is no timeout branch in the source, and the
first poll runs synchronously inside the promise executor, before any
worker `message` or `error` handler can have changed a status — so the
first poll reads `initialWorkerStats`. -/
def initWaitResolves (workerCount : Nat) (statuses : List WorkerStatus) : Bool :=
  initializedWorkers statuses == workerCount

/-- The readiness condition as claim C7 words it, at a given poll:
either all `workerCount` workers have signaled ready (`signaled` records
which have), or an initialization timeout has elapsed. -/
def claimReadyC7 (workerCount : Nat) (signaled : List Bool) (timedOut : Bool) : Bool :=
  (signaled.length == workerCount && signaled.all (fun o => o)) || timedOut

/-- Abstract state of the worker pool and its counters, for the run-level
counter invariant: `pending` counts to-do recipients the build loop has
not reached yet, `queue` the tasks waiting in `taskQueue`, `inFlight` the
tasks dispatched to a worker whose outcome has not been handled yet. -/
structure PoolState where
  stats : Counters
  pending : Nat
  queue : Nat
  inFlight : Nat
deriving DecidableEq, Repr

/-- Pre-dispatch `NO_FOLDER` record: `processed++`, `errors++`, validate. -/
def noFolderEvent (workerCount : Int) (s : PoolState) : PoolState :=
  { s with
    stats := validateProgressStats workerCount
      { s.stats with
        processed := s.stats.processed + 1
        errors := s.stats.errors + 1 }
    pending := s.pending - 1 }

/-- Build-loop enqueue of a task for a recipient with a folder. -/
def enqueueEvent (s : PoolState) : PoolState :=
  { s with pending := s.pending - 1, queue := s.queue + 1 }

/-- Model of `assignNextTask`: pop the queue, hand the task to an idle worker,
`activeWorkers++` (followed by `emitSpeedUpdate`'s validation). -/
def dispatchEvent (workerCount : Int) (s : PoolState) : PoolState :=
  { s with
    stats := validateProgressStats workerCount
      { s.stats with activeWorkers := s.stats.activeWorkers + 1 }
    queue := s.queue - 1
    inFlight := s.inFlight + 1 }

/-- Model of `handleWorkerMessage` for a `success` outcome: `processed++`,
`successful++`, `activeWorkers--`, validate. -/
def successEvent (workerCount : Int) (s : PoolState) : PoolState :=
  { s with
    stats := validateProgressStats workerCount
      { s.stats with
        processed := s.stats.processed + 1
        successful := s.stats.successful + 1
        activeWorkers := s.stats.activeWorkers - 1 }
    inFlight := s.inFlight - 1 }

/-- Model of `handleWorkerMessage` for an `error` outcome: `processed++`,
`failed++`, `activeWorkers--`, validate. -/
def errorEvent (workerCount : Int) (s : PoolState) : PoolState :=
  { s with
    stats := validateProgressStats workerCount
      { s.stats with
        processed := s.stats.processed + 1
        failed := s.stats.failed + 1
        activeWorkers := s.stats.activeWorkers - 1 }
    inFlight := s.inFlight - 1 }

/-- A fresh run over `n` to-do recipients: zeroed counters (no resume)
with `total := n`, nothing enqueued or in flight. -/
def initPoolState (n : Nat) : PoolState :=
  ⟨⟨(n : Int), 0, 0, 0, 0, 0⟩, n, 0, 0⟩

/-- The states a crash-free run of the coordinator can reach, for a pool
of `workerCount` workers.  Guards reflect the source: the build loop
consumes one pending recipient per iteration; `assignNextTask` fires only
when the queue is non-empty and only for an idle worker (each of the
`workerCount` workers holds at most one in-flight task, so dispatch
requires `inFlight < workerCount`); an outcome is handled only for a task
actually in flight. -/
inductive PoolReach (workerCount : Nat) : PoolState → Prop
  | init (n : Nat) : PoolReach workerCount (initPoolState n)
  | noFolder {s : PoolState} : PoolReach workerCount s → s.pending ≠ 0 →
      PoolReach workerCount (noFolderEvent (workerCount : Int) s)
  | enqueue {s : PoolState} : PoolReach workerCount s → s.pending ≠ 0 →
      PoolReach workerCount (enqueueEvent s)
  | dispatch {s : PoolState} : PoolReach workerCount s → s.queue ≠ 0 →
      s.inFlight < workerCount →
      PoolReach workerCount (dispatchEvent (workerCount : Int) s)
  | success {s : PoolState} : PoolReach workerCount s → s.inFlight ≠ 0 →
      PoolReach workerCount (successEvent (workerCount : Int) s)
  | failure {s : PoolState} : PoolReach workerCount s → s.inFlight ≠ 0 →
      PoolReach workerCount (errorEvent (workerCount : Int) s)

/-- The character class of `sanitizeString`'s first replace
(`[\x00-\x1F\x7F]`: control characters). -/
def isCtrlJs (c : Char) : Bool := c.toNat ≤ 0x1F || c.toNat == 0x7F

/-- The line separator (U+2028) and paragraph separator (U+2029) class. -/
def isLineSep (c : Char) : Bool := c.toNat == 0x2028 || c.toNat == 0x2029

/-- The final invisible-character class removed by `sanitizeString`:
U+0000 to U+001F, U+200B to U+200D, and U+FEFF. -/
def isInvisibleJs (c : Char) : Bool :=
  c.toNat ≤ 0x1F || (0x200B ≤ c.toNat && c.toNat ≤ 0x200D) || c.toNat == 0xFEFF

/-- Apply a character-to-string substitution over a whole string (the
shape of `String.prototype.replace` with a single-character pattern). -/
def expandWith (f : Char → Str) : Str → Str
  | [] => []
  | c :: rest => f c ++ expandWith f rest

/-- Model of `replace(/\\/g, '\\\\')`. -/
def escBackslash (c : Char) : Str := if c == '\\' then ['\\', '\\'] else [c]

/-- Model of `replace(/"/g, '\\"')`. -/
def escQuote (c : Char) : Str := if c == '"' then ['\\', '"'] else [c]

/-- Model of `replace(/\n/g, '\\n')`. -/
def escNewline (c : Char) : Str := if c == '\n' then ['\\', 'n'] else [c]

/-- Model of `replace(/\r/g, '\\r')`. -/
def escCarriage (c : Char) : Str := if c == '\r' then ['\\', 'r'] else [c]

/-- Model of `replace(/\t/g, '\\t')`. -/
def escTab (c : Char) : Str := if c == '\t' then ['\\', 't'] else [c]

/-- Model of `sanitizeString(str)` from `monitor_share.js`: remove control
characters, remove line/paragraph separators, escape backslashes, quotes,
newlines, carriage returns and tabs, remove the invisible-character
class, and trim. -/
def sanitizeStr (s : Str) : Str :=
  if s.isEmpty then []
  else
    trimL ((expandWith escTab (expandWith escCarriage (expandWith escNewline
      (expandWith escQuote (expandWith escBackslash
        ((s.filter (fun c => !isCtrlJs c)).filter (fun c => !isLineSep c))))))).filter
      (fun c => !isInvisibleJs c))

/-- Lexicographic `<` on strings by character code (JS relational
comparison of strings, code-unit order). -/
def strLtJs : Str → Str → Bool
  | [], [] => false
  | [], _ :: _ => true
  | _ :: _, [] => false
  | a :: as, b :: bs =>
    if a.toNat < b.toNat then true
    else if b.toNat < a.toNat then false
    else strLtJs as bs

/-- Model of `Map.prototype.set`: replace in place if the key exists, else append. -/
def mapSetEntry : List (Str × ShareResult) → Str → ShareResult → List (Str × ShareResult)
  | [], k, r => [(k, r)]
  | (k', r') :: rest, k, r =>
    if k' == k then (k', r) :: rest else (k', r') :: mapSetEntry rest k r

/-- One iteration of `emitResultsUpdate`'s per-participant dedup: keep the
entry with the later truthy timestamp
(`!existing || (result.timestamp && existing.timestamp && result.timestamp > existing.timestamp)`). -/
def dedupStep (acc : List (Str × ShareResult)) (r : ShareResult) : List (Str × ShareResult) :=
  let k := keyOf r.participant
  match (acc.find? (fun e => e.1 == k)).map (·.2) with
  | none => mapSetEntry acc k r
  | some existing =>
    if !r.timestamp.isEmpty && !existing.timestamp.isEmpty &&
        strLtJs existing.timestamp r.timestamp then
      mapSetEntry acc k r
    else acc

/-- Model of `Array.from(participantResults.values())`: the deduplicated results in
first-insertion key order. -/
def latestResultsOf (results : List ShareResult) : List ShareResult :=
  (results.foldl dedupStep []).map (·.2)

/-- Model of `r => !r.success || r.issueType` (a truthy issue type). -/
def isIssue (r : ShareResult) : Bool := !r.success || !r.issueType.isEmpty

/-- The issues list of `emitResultsUpdate`. -/
def issuesOf (results : List ShareResult) : List ShareResult :=
  (latestResultsOf results).filter isIssue

/-- The successful-results list of `emitResultsUpdate`. -/
def successfulOf (results : List ShareResult) : List ShareResult :=
  (latestResultsOf results).filter (·.success)

/-- JS `a || b` on strings: `b` when `a` is falsy (empty). -/
def jsOrStr (a b : Str) : Str := if a.isEmpty then b else a

/-- An element of the `detailedIssues` array in the `RESULTS_UPDATE`
payload. -/
structure IssueEntry where
  name : Str
  email : Str
  issueType : Str
  details : Str
  status : Str
  timestamp : Str
deriving DecidableEq, Repr

/-- An issue's `detailedIssues` entry: sanitized name and e-mail, the
details truncated to 100 characters before sanitization. -/
def mkIssueEntry (now : Str) (issue : ShareResult) : IssueEntry :=
  { name := sanitizeStr issue.participant.nama
    email := sanitizeStr issue.participant.email
    issueType := jsOrStr issue.issueType "UNKNOWN".toList
    details := sanitizeStr ((jsOrStr issue.details issue.error).take 100)
    status := jsOrStr issue.status "FAILED".toList
    timestamp := jsOrStr issue.timestamp now }

/-- A successful share's context entry in `detailedIssues`. -/
def mkSuccessEntry (now : Str) (s : ShareResult) : IssueEntry :=
  { name := sanitizeStr s.participant.nama
    email := sanitizeStr s.participant.email
    issueType := "SUCCESS".toList
    details := "Folder shared successfully".toList
    status := "COMPLETED".toList
    timestamp := jsOrStr s.timestamp now }

/-- The `RESULTS_UPDATE` JSON payload (`issueSummary`). -/
structure IssueSummary where
  totalIssues : Nat
  noFolder : Nat
  emailIssues : Nat
  permissionIssues : Nat
  truncated : Bool
  truncatedCount : Int
  detailedIssues : List IssueEntry
deriving DecidableEq, Repr

/-- Model of `const maxIssues = 50`. -/
def maxIssues : Nat := 50

/-- Model of `emitResultsUpdate()` from `monitor_share.js`, as a function of the
current `shareResults` and the current time (used when a result lacks a
timestamp): dedup by participant, split into issues and successes, take at
most 50 issues and at most 5 success-context entries. -/
def emitResultsUpdate (now : Str) (results : List ShareResult) : IssueSummary :=
  let issues := issuesOf results
  let successfulResults := successfulOf results
  let limitedIssues := issues.take maxIssues
  { totalIssues := issues.length
    noFolder := (issues.filter (fun r => r.issueType == "NO_FOLDER".toList)).length
    emailIssues := (issues.filter (fun r => r.issueType == "EMAIL_INVALID".toList)).length
    permissionIssues := (issues.filter (fun r => r.issueType == "PERMISSION_DENIED".toList)).length
    truncated := decide (issues.length > maxIssues)
    truncatedCount := (issues.length : Int) - (maxIssues : Int)
    detailedIssues := limitedIssues.map (mkIssueEntry now) ++
      (successfulResults.take 5).map (mkSuccessEntry now) }

/-- Model of `p.row === participant.row && p.email === participant.email`: the
match predicate of `updateLocalCache`'s `findIndex`. -/
def shareMatch (q p : Participant) : Bool := q.row == p.row && q.email == p.email

/-- The assignment `updateLocalCache` performs on the found entry. -/
def setSharedEntry (ts : Str) (q : Participant) : Participant :=
  { q with isShared := true, lastLog := ts }

/-- Model of `updateLocalCache(participant, true, ts)`: set `isShared`/`lastLog` on
the first cache entry matching the participant's row and e-mail. -/
def updateLocalCache (ts : Str) : List Participant → Participant → List Participant
  | [], _ => []
  | q :: rest, p =>
    if shareMatch q p then setSharedEntry ts q :: rest
    else q :: updateLocalCache ts rest p

/-- Engine state of a fresh run: zeroed counters, empty lists, empty
processed-keys set (no history file). -/
def freshState : BuildState := ⟨zeroCounters, [], [], [], []⟩

/-- The tasks a fresh run enqueues for a given folder map and cache. -/
def firstRunTasks (workerCount : Int) (m : FolderMap) (ts : Str)
    (cache : List Participant) : List ShareTask :=
  (processPhase workerCount m ts cache freshState).taskQueue

/-- The recipient cache after a clean first run in which `outcome` tells
which dispatched grants succeeded: `updateLocalCache` runs once per
successful outcome; failures leave the cache untouched. -/
def cacheAfterFirstRun (workerCount : Int) (m : FolderMap) (ts : Str)
    (cache : List Participant) (outcome : ShareTask → Bool) : List Participant :=
  ((firstRunTasks workerCount m ts cache).filter outcome).foldl
    (fun c t => updateLocalCache ts c t.participant) cache

/-- The tasks of a second run started right after a clean first run: the
history file was deleted by `cleanupHistory`, so the run starts with an
empty processed-keys set over the updated cache. -/
def secondRunTasks (workerCount : Int) (m : FolderMap) (ts : Str)
    (cache : List Participant) (outcome : ShareTask → Bool) : List ShareTask :=
  (processPhase workerCount m ts (cacheAfterFirstRun workerCount m ts cache outcome)
    freshState).taskQueue

/-- The task the build loop would enqueue for a recipient, `none` for a
falsy folder id (characterizes the queue the build loop produces). -/
def toTaskOpt (m : FolderMap) (p : Participant) : Option ShareTask :=
  let folderId := findFolderIdForParticipant m p.nama
  if strTruthy folderId then some ⟨folderId.getD [], p.email, p⟩ else none

example : findFolderIdForParticipant [("alice".toList, "f1".toList)] "  ALICE ".toList = some "f1".toList := by decide
example : findFolderIdForParticipant [("alice smith, s.e.".toList, "f1".toList)] "Alice Smith".toList = some "f1".toList := by decide
example : findFolderIdForParticipant [("bob".toList, "f2".toList)] "Alice".toList = none := by decide
example : validateProgressStats 16 ⟨10, -2, 1, 0, 0, 0⟩ = ⟨10, -2, 0, 0, 0, 0⟩ := by decide
example : validateProgressStats 16 ⟨5, 10, 7, 5, 0, 20⟩ = ⟨5, 5, 2, 2, 0, 16⟩ := by decide

/-! ## Shared lemmas -/

/-- Model of `validateProgressStats` is the identity on counters that already
satisfy the invariants it repairs. -/
theorem validate_eq_self {w : Int} {c : Counters}
    (h1 : c.processed ≤ c.total) (h2 : 0 ≤ c.successful) (h3 : 0 ≤ c.failed)
    (h4 : 0 ≤ c.errors) (h5 : c.successful + c.failed ≤ c.processed)
    (h6 : 0 ≤ c.activeWorkers) (h7 : c.activeWorkers ≤ w) :
    validateProgressStats w c = c := by
  unfold validateProgressStats
  dsimp only
  rw [if_neg (show ¬ (c.processed > c.total) by omega)]
  rw [if_neg (show ¬ (c.successful + c.failed > c.processed) by omega)]
  rw [max_eq_right h2, max_eq_right h3, max_eq_right h4, min_eq_left h7,
    max_eq_right h6]

/-! ## Claim C5 -/

/-- C5 counterexample: `validateProgressStats` does not clamp `processed`
into `[0, total]` — on counters with `processed = -2` the result still has
`processed = -2`, outside the claimed interval. -/
theorem c5_counterexample :
    (validateProgressStats 16 ⟨10, -2, 1, 0, 0, 0⟩).processed = -2 ∧
    ¬ (0 ≤ (validateProgressStats 16 ⟨10, -2, 1, 0, 0, 0⟩).processed) := by
  decide

/-- C5 (amended): one run of the counter-validation step clamps
`processed` only from above to `total` (a negative `processed` is left
unchanged), scales `successful` and `failed` by the floor of the factor
`processed / (successful + failed)` when their sum exceeds the clamped
`processed`, then clamps `successful`, `failed`, `errors` to be
non-negative and `activeWorkers` into `[0, workerCount]`. -/
theorem c5_validate_amended (w : Int) (c : Counters) :
    validateProgressStats w c = validateSpecAmended w c := by
  unfold validateProgressStats validateSpecAmended
  dsimp only
  simp only [gt_iff_lt]
  rcases le_or_lt c.processed c.total with h | h
  · rw [if_neg (show ¬ (c.total < c.processed) by omega), min_eq_left h]
    rcases lt_or_le c.processed (c.successful + c.failed) with h2 | h2
    · simp only [if_pos h2]
    · simp only [if_neg (show ¬ (c.processed < c.successful + c.failed) by omega)]
  · rw [if_pos h, min_eq_right h.le]
    dsimp only
    rcases lt_or_le c.total (c.successful + c.failed) with h2 | h2
    · simp only [if_pos h2]
    · simp only [if_neg (show ¬ (c.total < c.successful + c.failed) by omega)]

/-! ## Claim C6 -/

/-- C6 counterexample: a snapshot whose `errors` counter is negative.  The
claim's rejection condition ("any counter is negative") holds, yet
`loadProcessingHistory` accepts the counters unchanged — its check never
looks at `errors` (or `activeWorkers`), so the claimed "if and only if"
is false. -/
theorem c6_counterexample :
    claimRejectC6 ⟨10, 5, 2, 1, -3, 0⟩ = true ∧
    (loadProcessingHistory ⟨[], [], [], ⟨10, 5, 2, 1, -3, 0⟩⟩).stats =
      ⟨10, 5, 2, 1, -3, 0⟩ ∧
    (⟨10, 5, 2, 1, -3, 0⟩ : Counters) ≠ zeroCounters := by
  decide

/-- C6 (amended): on load the snapshot's counters are accepted exactly
when `total > 0`, `0 ≤ processed ≤ total`, `successful ≥ 0`, `failed ≥ 0`
and `successful + failed ≤ processed` (negative `errors` or
`activeWorkers` are not checked), and are otherwise reset to zero; the
processed-keys set (de-duplicated) and the share-result list from the
snapshot are accepted in every case. -/
theorem c6_load_amended (h : HistorySnapshot) :
    (loadProcessingHistory h).shareResults = h.shareResults ∧
    (loadProcessingHistory h).processedParticipants =
      h.processedParticipants.foldl insertKey [] ∧
    ((0 < h.progressStats.total ∧ 0 ≤ h.progressStats.processed ∧
      h.progressStats.processed ≤ h.progressStats.total ∧
      0 ≤ h.progressStats.successful ∧ 0 ≤ h.progressStats.failed ∧
      h.progressStats.successful + h.progressStats.failed ≤ h.progressStats.processed) →
      (loadProcessingHistory h).stats = h.progressStats) ∧
    (¬ (0 < h.progressStats.total ∧ 0 ≤ h.progressStats.processed ∧
      h.progressStats.processed ≤ h.progressStats.total ∧
      0 ≤ h.progressStats.successful ∧ 0 ≤ h.progressStats.failed ∧
      h.progressStats.successful + h.progressStats.failed ≤ h.progressStats.processed) →
      (loadProcessingHistory h).stats = zeroCounters) := by
  refine ⟨rfl, rfl, ?_, ?_⟩
  · intro hc
    have : acceptStats h.progressStats = true := by
      simp only [acceptStats, Bool.and_eq_true, decide_eq_true_eq]
      omega
    simp [loadProcessingHistory, this]
  · intro hc
    have : acceptStats h.progressStats = false := by
      simp only [acceptStats]
      by_contra hb
      apply hc
      simp only [Bool.not_eq_false, Bool.and_eq_true, decide_eq_true_eq] at hb
      omega
    simp [loadProcessingHistory, this]

/-- C6 witness: the amended load behaviour at a concrete snapshot with
acceptable counters. -/
theorem c6_load_amended_witness :
    (loadProcessingHistory ⟨["a|b".toList], [], [], ⟨4, 3, 2, 1, 0, 0⟩⟩).stats =
      ⟨4, 3, 2, 1, 0, 0⟩ :=
  (c6_load_amended ⟨["a|b".toList], [], [], ⟨4, 3, 2, 1, 0, 0⟩⟩).2.2.1 (by decide)

/-! ## Claim C7 -/

/-- C7 counterexample: the first poll of `checkInitialization` runs
synchronously inside the promise executor, before any worker `message`
or `error` handler can run, so it reads exactly the
constructor-initialized statuses — all `idle`.  The resolve condition is
therefore already true while zero workers have signaled ready and no
timeout has elapsed (the source has no timeout at all): the pool is
declared ready by neither of the claim's two mechanisms. -/
theorem c7_counterexample :
    initWaitResolves 16 (initialWorkerStats 16) = true ∧
    claimReadyC7 16 (List.replicate 16 false) false = false := by
  decide

/-- C7 (amended): worker-pool start-up terminates for every
initialization behaviour, but vacuously: the constructor initializes all
`workerCount` status slots to `idle` and the poll counts `idle` slots, so
the first synchronous poll — run before any worker has signaled ready or
errored — already satisfies the resolve condition and the pool is
considered ready immediately, for every pool size; no initialization
timeout exists and failed workers are neither marked `error` nor excluded
at start-up by this wait. -/
theorem c7_init_amended (workerCount : Nat) :
    initWaitResolves workerCount (initialWorkerStats workerCount) = true := by
  unfold initWaitResolves initializedWorkers initialWorkerStats
  induction workerCount with
  | zero => rfl
  | succ n ih =>
    simp [List.replicate_succ, List.filter_cons,
      show (WorkerStatus.idle == WorkerStatus.idle) = true by decide]

/-! ## Claim C4 -/

/-- The recursive substring scan agrees with its `List.find?` form. -/
theorem stage3Scan_eq_find (m : FolderMap) (q : Str) :
    stage3Scan m q = stage3Find m q := by
  induction m with
  | nil => rfl
  | cons e rest ih =>
    obtain ⟨folderName, folderId⟩ := e
    by_cases hc : (containsSub (trimL (toLowerL folderName)) q ||
        containsSub q (trimL (toLowerL folderName))) = true
    · simp [stage3Scan, stage3Find, List.find?_cons, hc]
    · simp only [Bool.not_eq_true] at hc
      simp [stage3Scan, stage3Find, List.find?_cons, hc] at ih ⊢
      exact ih

/-- C4 counterexample: with the folder map `{"a": "z", "ab": ""}` and name
`"ab"`, the claimed three-stage contract returns the exact-lookup value
`""`, but the source's truthiness guards skip the falsy empty-string value
and the substring stage returns `"z"` from the earlier entry instead. -/
theorem c4_counterexample :
    findFolderIdForParticipant
        [("a".toList, "z".toList), ("ab".toList, [])] "ab".toList ≠
      findFolderIdSpec
        [("a".toList, "z".toList), ("ab".toList, [])] "ab".toList := by
  decide

/-- C4 (amended): the matcher is a pure function of the name and folder
map returning the first of three ordered stages — exact lookup of the
lower-cased trimmed name, lookup of the whitespace-collapsed form, then
the first entry related to the query by substring in either direction —
except that the two direct-lookup stages also fall through when the
stored folder id is the empty string (falsy in the source's guards); it
returns nil when all stages miss, and repeated calls agree because the
function is deterministic in its two arguments. -/
theorem c4_matcher_amended (m : FolderMap) (participantNama : Str) :
    findFolderIdForParticipant m participantNama =
      findFolderIdSpecAmended m participantNama := by
  unfold findFolderIdForParticipant findFolderIdSpecAmended truthyLookup
  dsimp only
  rcases h1 : jsGet m (trimL (toLowerL participantNama)) with _ | v1
  · simp only [strTruthy]
    rcases h2 : jsGet m (collapseWs (trimL (toLowerL participantNama))) with _ | v2
    · simp [strTruthy, stage3Scan_eq_find]
    · by_cases hv2 : v2.isEmpty
      · simp [strTruthy, hv2, stage3Scan_eq_find]
      · simp [strTruthy, hv2]
  · by_cases hv1 : v1.isEmpty
    · simp only [strTruthy, hv1, Bool.not_true, Bool.false_eq_true, if_false]
      rcases h2 : jsGet m (collapseWs (trimL (toLowerL participantNama))) with _ | v2
      · simp [strTruthy, stage3Scan_eq_find]
      · by_cases hv2 : v2.isEmpty
        · simp [strTruthy, hv2, stage3Scan_eq_find]
        · simp [strTruthy, hv2]
    · simp [strTruthy, hv1]

/-! ## Claim C1 -/

/-- The inductive invariant of a crash-free run that starts with zeroed
counters: the three outcome counters partition `processed`; the processed,
pending, queued and in-flight recipients partition `total`; `activeWorkers`
tracks the in-flight count, which is bounded by the pool size. -/
def poolInvariant (workerCount : Nat) (s : PoolState) : Prop :=
  s.stats.successful + s.stats.failed + s.stats.errors = s.stats.processed ∧
  s.stats.processed + (s.pending : Int) + (s.queue : Int) + (s.inFlight : Int) =
    s.stats.total ∧
  s.stats.activeWorkers = (s.inFlight : Int) ∧
  0 ≤ s.stats.successful ∧ 0 ≤ s.stats.failed ∧ 0 ≤ s.stats.errors ∧
  s.inFlight ≤ workerCount

/-- Every reachable state of a zero-start run satisfies the inductive
invariant. -/
theorem poolReach_invariant {workerCount : Nat} {s : PoolState}
    (h : PoolReach workerCount s) : poolInvariant workerCount s := by
  induction h with
  | init n =>
    unfold poolInvariant initPoolState
    dsimp only
    omega
  | noFolder hr hp ih =>
    obtain ⟨h1, h2, h3, h4, h5, h6, h7⟩ := ih
    rename_i s'
    unfold poolInvariant noFolderEvent
    rw [validate_eq_self (by dsimp only; omega) (by dsimp only; omega)
      (by dsimp only; omega) (by dsimp only; omega) (by dsimp only; omega)
      (by dsimp only; omega) (by dsimp only; omega)]
    dsimp only
    omega
  | enqueue hr hp ih =>
    obtain ⟨h1, h2, h3, h4, h5, h6, h7⟩ := ih
    unfold poolInvariant enqueueEvent
    dsimp only
    omega
  | dispatch hr hq hw ih =>
    obtain ⟨h1, h2, h3, h4, h5, h6, h7⟩ := ih
    unfold poolInvariant dispatchEvent
    rw [validate_eq_self (by dsimp only; omega) (by dsimp only; omega)
      (by dsimp only; omega) (by dsimp only; omega) (by dsimp only; omega)
      (by dsimp only; omega) (by dsimp only; omega)]
    dsimp only
    omega
  | success hr hs ih =>
    obtain ⟨h1, h2, h3, h4, h5, h6, h7⟩ := ih
    unfold poolInvariant successEvent
    rw [validate_eq_self (by dsimp only; omega) (by dsimp only; omega)
      (by dsimp only; omega) (by dsimp only; omega) (by dsimp only; omega)
      (by dsimp only; omega) (by dsimp only; omega)]
    dsimp only
    omega
  | failure hr hf ih =>
    obtain ⟨h1, h2, h3, h4, h5, h6, h7⟩ := ih
    unfold poolInvariant errorEvent
    rw [validate_eq_self (by dsimp only; omega) (by dsimp only; omega)
      (by dsimp only; omega) (by dsimp only; omega) (by dsimp only; omega)
      (by dsimp only; omega) (by dsimp only; omega)]
    dsimp only
    omega

/-- C1 (confirmed): in every run starting from zeroed counters, every
state the coordinator can reach — in particular the state after each
worker-outcome handling and after each pre-dispatch no-folder record —
satisfies `successful + failed + errors = processed`,
`processed ≤ total`, and `0 ≤ activeWorkers ≤ workerCount`. -/
theorem c1_counter_invariant (workerCount : Nat) (s : PoolState)
    (h : PoolReach workerCount s) :
    s.stats.successful + s.stats.failed + s.stats.errors = s.stats.processed ∧
    s.stats.processed ≤ s.stats.total ∧
    0 ≤ s.stats.activeWorkers ∧ s.stats.activeWorkers ≤ (workerCount : Int) := by
  obtain ⟨h1, h2, h3, h4, h5, h6, h7⟩ := poolReach_invariant h
  omega

/-- C1 witness: the invariant at a concrete reachable state of a fresh
run over three recipients (one no-folder record, one enqueue, one
dispatch). -/
theorem c1_counter_invariant_witness :
    ((dispatchEvent 16 (enqueueEvent (noFolderEvent 16 (initPoolState 3)))).stats.successful +
      (dispatchEvent 16 (enqueueEvent (noFolderEvent 16 (initPoolState 3)))).stats.failed +
      (dispatchEvent 16 (enqueueEvent (noFolderEvent 16 (initPoolState 3)))).stats.errors =
      (dispatchEvent 16 (enqueueEvent (noFolderEvent 16 (initPoolState 3)))).stats.processed) ∧
    (dispatchEvent 16 (enqueueEvent (noFolderEvent 16 (initPoolState 3)))).stats.processed ≤
      (dispatchEvent 16 (enqueueEvent (noFolderEvent 16 (initPoolState 3)))).stats.total ∧
    0 ≤ (dispatchEvent 16 (enqueueEvent (noFolderEvent 16 (initPoolState 3)))).stats.activeWorkers ∧
    (dispatchEvent 16 (enqueueEvent (noFolderEvent 16 (initPoolState 3)))).stats.activeWorkers ≤
      ((16 : Nat) : Int) :=
  c1_counter_invariant 16 _
    (PoolReach.dispatch
      (PoolReach.enqueue (PoolReach.noFolder (PoolReach.init 3) (by decide)) (by decide))
      (by decide) (by decide))

/-! ## Claim C2 -/

/-- A build-loop iteration on a recipient with a truthy folder id only
appends the task. -/
theorem buildStep_truthy (w : Int) (m : FolderMap) (ts : Str)
    (st : BuildState) (p : Participant)
    (h : strTruthy (findFolderIdForParticipant m p.nama) = true) :
    buildStep w m ts st p =
      { st with taskQueue := st.taskQueue ++
          [⟨(findFolderIdForParticipant m p.nama).getD [], p.email, p⟩] } := by
  simp [buildStep, h]

/-- A build-loop iteration on a recipient with a falsy folder id records
the `NO_FOLDER` issue and leaves the queue and processed-keys set alone. -/
theorem buildStep_falsy (w : Int) (m : FolderMap) (ts : Str)
    (st : BuildState) (p : Participant)
    (h : strTruthy (findFolderIdForParticipant m p.nama) = false) :
    buildStep w m ts st p =
      { st with
        shareResults := st.shareResults ++ [noFolderResult p ts]
        stats := validateProgressStats w
          { st.stats with
            processed := st.stats.processed + 1
            errors := st.stats.errors + 1 }
        batchUpdates := st.batchUpdates ++
          [⟨'I', p.row, "FALSE".toList⟩,
           ⟨'J', p.row, "Issue: No folder found - ".toList ++ ts⟩] } := by
  simp [buildStep, h]

/-- The task queue the build loop produces: the prior queue followed by
one task per recipient with a truthy folder id, in order. -/
theorem buildPhase_queue (w : Int) (m : FolderMap) (ts : Str)
    (st : BuildState) (ps : List Participant) :
    (buildPhase w m ts st ps).taskQueue =
      st.taskQueue ++ ps.filterMap (toTaskOpt m) := by
  induction ps generalizing st with
  | nil => simp [buildPhase]
  | cons p ps ih =>
    show (buildPhase w m ts (buildStep w m ts st p) ps).taskQueue = _
    by_cases h : strTruthy (findFolderIdForParticipant m p.nama)
    · rw [buildStep_truthy w m ts st p h, ih]
      simp [toTaskOpt, h]
    · rw [buildStep_falsy w m ts st p (by simpa using h), ih]
      simp [toTaskOpt, h]

/-- The dispatched keys are the keys of the recipients that pass the
folder-id filter. -/
theorem filterMap_toTask_keys (m : FolderMap) (ps : List Participant) :
    (ps.filterMap (toTaskOpt m)).map (fun t => keyOf t.participant) =
      (ps.filter (fun p => strTruthy (findFolderIdForParticipant m p.nama))).map keyOf := by
  induction ps with
  | nil => rfl
  | cons p ps ih =>
    by_cases h : strTruthy (findFolderIdForParticipant m p.nama)
    · simp [toTaskOpt, h, List.filterMap_cons, List.filter_cons, ih]
    · simp [toTaskOpt, h, List.filterMap_cons, List.filter_cons, ih]

/-- C2 counterexample: an input recipient list containing the same
(name, e-mail) recipient twice.  The run enqueues (and hence dispatches)
two tasks carrying the same key — the processed-keys set is only updated
by worker outcomes, after the whole queue is built — refuting "at most
once ... for every input recipient list". -/
theorem c2_counterexample :
    ((firstRunTasks 16 [("alice".toList, "f1".toList)] "T".toList
        [⟨2, "alice".toList, "a@x".toList, false, []⟩,
         ⟨3, "alice".toList, "a@x".toList, false, []⟩]).map
      (fun t => keyOf t.participant)).count "alice|a@x".toList = 2 := by
  decide

/-- C2 (amended): in a single crash-free run whose input recipient list
carries pairwise-distinct (name, e-mail) keys, every key is dispatched to
the grant call at most once: the keys of the built task queue are
pairwise distinct. -/
theorem c2_at_most_once_amended (w : Int) (m : FolderMap) (ts : Str)
    (cached : List Participant) (st : BuildState) (hq : st.taskQueue = [])
    (hnd : (cached.map keyOf).Nodup) :
    (((processPhase w m ts cached st).taskQueue).map
      (fun t => keyOf t.participant)).Nodup := by
  have hqueue : (processPhase w m ts cached st).taskQueue =
      (filterParticipants cached st.processedParticipants).filterMap (toTaskOpt m) := by
    unfold processPhase
    rw [buildPhase_queue]
    simp [hq]
  rw [hqueue, filterMap_toTask_keys]
  have hsub : List.Sublist
      (((filterParticipants cached st.processedParticipants).filter
        (fun p => strTruthy (findFolderIdForParticipant m p.nama))).map keyOf)
      (cached.map keyOf) := by
    apply List.Sublist.map
    exact (List.filter_sublist _).trans (List.filter_sublist _)
  exact List.Nodup.sublist hsub hnd

/-- C2 witness: the amended distinctness at a concrete duplicate-free
input. -/
theorem c2_at_most_once_amended_witness :
    (((processPhase 16 [("alice".toList, "f1".toList)] "T".toList
        [⟨2, "alice".toList, "a@x".toList, false, []⟩] freshState).taskQueue).map
      (fun t => keyOf t.participant)).Nodup :=
  c2_at_most_once_amended 16 [("alice".toList, "f1".toList)] "T".toList
    [⟨2, "alice".toList, "a@x".toList, false, []⟩] freshState rfl (by decide)

/-! ## Claim C3 -/

/-- C3 (confirmed): a recipient whose folder lookup returns nil is not
enqueued; the engine appends one `ShareResult` with `success = false` and
issue type `NO_FOLDER`, increments `processed` and `errors` but neither
`failed` nor `successful`, and appends exactly the two cell updates
`(I<row>, "FALSE")` and `(J<row>, "Issue: No folder found - <ts>")`.
The counter hypotheses say the pre-state is within the engine's
invariants (with room for one more recipient), so the validation step the
source runs right after the increments is the identity. -/
theorem c3_no_folder_record (w : Int) (m : FolderMap) (ts : Str)
    (st : BuildState) (p : Participant)
    (hf : findFolderIdForParticipant m p.nama = none)
    (h1 : st.stats.processed < st.stats.total)
    (h2 : 0 ≤ st.stats.successful) (h3 : 0 ≤ st.stats.failed)
    (h4 : 0 ≤ st.stats.errors)
    (h5 : st.stats.successful + st.stats.failed ≤ st.stats.processed)
    (h6 : 0 ≤ st.stats.activeWorkers) (h7 : st.stats.activeWorkers ≤ w) :
    (buildStep w m ts st p).taskQueue = st.taskQueue ∧
    (buildStep w m ts st p).shareResults = st.shareResults ++ [noFolderResult p ts] ∧
    (noFolderResult p ts).success = false ∧
    (noFolderResult p ts).issueType = "NO_FOLDER".toList ∧
    (buildStep w m ts st p).stats.processed = st.stats.processed + 1 ∧
    (buildStep w m ts st p).stats.errors = st.stats.errors + 1 ∧
    (buildStep w m ts st p).stats.failed = st.stats.failed ∧
    (buildStep w m ts st p).stats.successful = st.stats.successful ∧
    (buildStep w m ts st p).batchUpdates = st.batchUpdates ++
      [⟨'I', p.row, "FALSE".toList⟩,
       ⟨'J', p.row, "Issue: No folder found - ".toList ++ ts⟩] := by
  have hfe : strTruthy (findFolderIdForParticipant m p.nama) = false := by
    rw [hf]; rfl
  rw [buildStep_falsy w m ts st p hfe]
  rw [validate_eq_self (by dsimp only; omega) (by dsimp only; omega)
    (by dsimp only; omega) (by dsimp only; omega) (by dsimp only; omega)
    (by dsimp only; omega) (by dsimp only; omega)]
  exact ⟨rfl, rfl, rfl, rfl, rfl, rfl, rfl, rfl, rfl⟩

/-- C3 witness: the no-folder record at a concrete state — one recipient,
an empty folder map, counters at zero with `total = 1`. -/
theorem c3_no_folder_record_witness :
    (buildStep 16 [] "T".toList ⟨⟨1, 0, 0, 0, 0, 0⟩, [], [], [], []⟩
        ⟨2, "alice".toList, "a@x".toList, false, []⟩).taskQueue = [] ∧
    (buildStep 16 [] "T".toList ⟨⟨1, 0, 0, 0, 0, 0⟩, [], [], [], []⟩
        ⟨2, "alice".toList, "a@x".toList, false, []⟩).shareResults =
      [] ++ [noFolderResult ⟨2, "alice".toList, "a@x".toList, false, []⟩ "T".toList] ∧
    (noFolderResult ⟨2, "alice".toList, "a@x".toList, false, []⟩ "T".toList).success = false ∧
    (noFolderResult ⟨2, "alice".toList, "a@x".toList, false, []⟩ "T".toList).issueType =
      "NO_FOLDER".toList ∧
    (buildStep 16 [] "T".toList ⟨⟨1, 0, 0, 0, 0, 0⟩, [], [], [], []⟩
        ⟨2, "alice".toList, "a@x".toList, false, []⟩).stats.processed = 0 + 1 ∧
    (buildStep 16 [] "T".toList ⟨⟨1, 0, 0, 0, 0, 0⟩, [], [], [], []⟩
        ⟨2, "alice".toList, "a@x".toList, false, []⟩).stats.errors = 0 + 1 ∧
    (buildStep 16 [] "T".toList ⟨⟨1, 0, 0, 0, 0, 0⟩, [], [], [], []⟩
        ⟨2, "alice".toList, "a@x".toList, false, []⟩).stats.failed = 0 ∧
    (buildStep 16 [] "T".toList ⟨⟨1, 0, 0, 0, 0, 0⟩, [], [], [], []⟩
        ⟨2, "alice".toList, "a@x".toList, false, []⟩).stats.successful = 0 ∧
    (buildStep 16 [] "T".toList ⟨⟨1, 0, 0, 0, 0, 0⟩, [], [], [], []⟩
        ⟨2, "alice".toList, "a@x".toList, false, []⟩).batchUpdates = [] ++
      [⟨'I', 2, "FALSE".toList⟩,
       ⟨'J', 2, "Issue: No folder found - ".toList ++ "T".toList⟩] :=
  c3_no_folder_record 16 [] "T".toList ⟨⟨1, 0, 0, 0, 0, 0⟩, [], [], [], []⟩
    ⟨2, "alice".toList, "a@x".toList, false, []⟩ (by decide) (by decide)
    (by decide) (by decide) (by decide) (by decide) (by decide) (by decide)

/-! ## Claim C10 -/

/-- The number of to-do recipients whose folder lookup is falsy. -/
def falsyCount (m : FolderMap) (ps : List Participant) : Nat :=
  (ps.filter (fun p => !(strTruthy (findFolderIdForParticipant m p.nama)))).length

/-- The build loop never touches the processed-keys set. -/
theorem buildPhase_processedSet (w : Int) (m : FolderMap) (ts : Str)
    (st : BuildState) (ps : List Participant) :
    (buildPhase w m ts st ps).processedParticipants = st.processedParticipants := by
  induction ps generalizing st with
  | nil => rfl
  | cons p ps ih =>
    show (buildPhase w m ts (buildStep w m ts st p) ps).processedParticipants = _
    by_cases h : strTruthy (findFolderIdForParticipant m p.nama)
    · rw [buildStep_truthy w m ts st p h, ih]
    · rw [buildStep_falsy w m ts st p (by simpa using h), ih]

/-- The build loop appends exactly one `NO_FOLDER` result per falsy
recipient, in order. -/
theorem buildPhase_results (w : Int) (m : FolderMap) (ts : Str)
    (st : BuildState) (ps : List Participant) :
    (buildPhase w m ts st ps).shareResults = st.shareResults ++
      (ps.filter (fun p => !(strTruthy (findFolderIdForParticipant m p.nama)))).map
        (fun p => noFolderResult p ts) := by
  induction ps generalizing st with
  | nil => simp [buildPhase]
  | cons p ps ih =>
    show (buildPhase w m ts (buildStep w m ts st p) ps).shareResults = _
    by_cases h : strTruthy (findFolderIdForParticipant m p.nama)
    · rw [buildStep_truthy w m ts st p h, ih]
      simp [List.filter_cons, h]
    · rw [buildStep_falsy w m ts st p (by simpa using h), ih]
      simp [List.filter_cons, h]

/-- The build loop's net effect on counters, when the pre-state is within
the engine's invariants and `total` leaves room for every falsy
recipient: `processed` and `errors` each gain one per falsy recipient,
`successful` and `failed` are untouched. -/
theorem buildPhase_counts (w : Int) (m : FolderMap) (ts : Str)
    (ps : List Participant) : ∀ st : BuildState,
    0 ≤ st.stats.successful → 0 ≤ st.stats.failed → 0 ≤ st.stats.errors →
    st.stats.successful + st.stats.failed ≤ st.stats.processed →
    0 ≤ st.stats.activeWorkers → st.stats.activeWorkers ≤ w →
    st.stats.processed + (falsyCount m ps : Int) ≤ st.stats.total →
    (buildPhase w m ts st ps).stats.processed =
      st.stats.processed + (falsyCount m ps : Int) ∧
    (buildPhase w m ts st ps).stats.errors =
      st.stats.errors + (falsyCount m ps : Int) ∧
    (buildPhase w m ts st ps).stats.failed = st.stats.failed ∧
    (buildPhase w m ts st ps).stats.successful = st.stats.successful ∧
    (buildPhase w m ts st ps).stats.total = st.stats.total := by
  induction ps with
  | nil =>
    intro st _ _ _ _ _ _ _
    simp [buildPhase, falsyCount]
  | cons p ps ih =>
    intro st h2 h3 h4 h5 h6 h7 hroom
    have hshow : buildPhase w m ts st (p :: ps) =
        buildPhase w m ts (buildStep w m ts st p) ps := rfl
    by_cases h : strTruthy (findFolderIdForParticipant m p.nama)
    · have hcnt : falsyCount m (p :: ps) = falsyCount m ps := by
        simp [falsyCount, List.filter_cons, h]
      rw [hshow, buildStep_truthy w m ts st p h]
      rw [hcnt] at hroom ⊢
      exact ih _ h2 h3 h4 h5 h6 h7 hroom
    · have hcnt : falsyCount m (p :: ps) = falsyCount m ps + 1 := by
        simp [falsyCount, List.filter_cons, h]
      rw [hcnt] at hroom
      push_cast at hroom
      have hstats : (buildStep w m ts st p).stats =
          { st.stats with
            processed := st.stats.processed + 1
            errors := st.stats.errors + 1 } := by
        rw [buildStep_falsy w m ts st p (by simpa using h)]
        exact validate_eq_self (by dsimp only; omega) (by dsimp only; omega)
          (by dsimp only; omega) (by dsimp only; omega) (by dsimp only; omega)
          (by dsimp only; omega) (by dsimp only; omega)
      rw [hshow]
      obtain ⟨e1, e2, e3, e4, e5⟩ := ih (buildStep w m ts st p)
        (by rw [hstats]; dsimp only; omega) (by rw [hstats]; dsimp only; omega)
        (by rw [hstats]; dsimp only; omega) (by rw [hstats]; dsimp only; omega)
        (by rw [hstats]; dsimp only; omega) (by rw [hstats]; dsimp only; omega)
        (by rw [hstats]; dsimp only; omega)
      rw [hcnt, e1, e2, e3, e4, e5, hstats]
      dsimp only
      push_cast
      omega

/-- C10 counterexample: a run resumed from an accepted history snapshot
(`total = 7, processed = 6, successful = 5, errors = 1`) over a cache in
which one no-folder recipient and one recipient with a folder remain.
`processWithWorkers` overwrites `total` with the remaining count (2), so
when the no-folder recipient is recorded again `processed` is clamped
down to 2 instead of being incremented to 7: the claim's "counted in
processed ... again" fails (`errors` is incremented, `processed` is not). -/
theorem c10_counterexample :
    (processPhase 16 [("bob".toList, "f2".toList)] "T".toList
        [⟨2, "alice".toList, "a@x".toList, false, []⟩,
         ⟨3, "bob".toList, "b@x".toList, false, []⟩]
        (loadProcessingHistory ⟨["x|y".toList], [], [], ⟨7, 6, 5, 0, 1, 0⟩⟩)).stats.processed = 2 ∧
    ¬ ((processPhase 16 [("bob".toList, "f2".toList)] "T".toList
        [⟨2, "alice".toList, "a@x".toList, false, []⟩,
         ⟨3, "bob".toList, "b@x".toList, false, []⟩]
        (loadProcessingHistory ⟨["x|y".toList], [], [], ⟨7, 6, 5, 0, 1, 0⟩⟩)).stats.processed =
      6 + 1) ∧
    (processPhase 16 [("bob".toList, "f2".toList)] "T".toList
        [⟨2, "alice".toList, "a@x".toList, false, []⟩,
         ⟨3, "bob".toList, "b@x".toList, false, []⟩]
        (loadProcessingHistory ⟨["x|y".toList], [], [], ⟨7, 6, 5, 0, 1, 0⟩⟩)).stats.errors =
      1 + 1 := by
  decide

/-- C10 (amended): the processed-keys set gains no key during the build
loop (in particular never for a no-folder recipient) and gains exactly the
outcome's key when a worker reports success or failure; consequently a
run resumed with a history set not containing a no-folder recipient's key
re-includes that recipient in the to-do list and appends its `NO_FOLDER`
result again, incrementing `errors` once per falsy recipient — and
`processed` likewise, but only when the resumed counters leave room
(`processed + falsyCount ≤` the new `total`, the remaining-recipient
count); otherwise the validation clamp pins `processed` instead. -/
theorem c10_no_folder_not_marked_amended (w : Int) (m : FolderMap) (ts : Str)
    (cached : List Participant) (st : BuildState) (p : Participant)
    (hmem : p ∈ cached) (hshared : p.isShared = false)
    (hkey : st.processedParticipants.contains (keyOf p) = false)
    (hf : findFolderIdForParticipant m p.nama = none)
    (h2 : 0 ≤ st.stats.successful) (h3 : 0 ≤ st.stats.failed)
    (h4 : 0 ≤ st.stats.errors)
    (h5 : st.stats.successful + st.stats.failed ≤ st.stats.processed)
    (h6 : 0 ≤ st.stats.activeWorkers) (h7 : st.stats.activeWorkers ≤ w)
    (hroom : st.stats.processed +
        (falsyCount m (filterParticipants cached st.processedParticipants) : Int) ≤
      ((filterParticipants cached st.processedParticipants).length : Int)) :
    (∀ (st' : BuildState) (p' : Participant),
      (buildStep w m ts st' p').processedParticipants = st'.processedParticipants) ∧
    (∀ (st' : BuildState) (r : WorkerResult) (ts' : Str),
      (handleWorkerResult w r ts' st').processedParticipants =
        insertKey st'.processedParticipants (keyOf r.participant)) ∧
    p ∈ filterParticipants cached st.processedParticipants ∧
    noFolderResult p ts ∈ (processPhase w m ts cached st).shareResults ∧
    1 ≤ falsyCount m (filterParticipants cached st.processedParticipants) ∧
    (processPhase w m ts cached st).stats.errors = st.stats.errors +
      (falsyCount m (filterParticipants cached st.processedParticipants) : Int) ∧
    (processPhase w m ts cached st).stats.processed = st.stats.processed +
      (falsyCount m (filterParticipants cached st.processedParticipants) : Int) := by
  have hfe : strTruthy (findFolderIdForParticipant m p.nama) = false := by
    rw [hf]; rfl
  have hpf : p ∈ filterParticipants cached st.processedParticipants := by
    apply List.mem_filter.mpr
    refine ⟨hmem, ?_⟩
    simp [hshared, hkey]
    simpa using hkey
  have hpfalsy : p ∈ (filterParticipants cached st.processedParticipants).filter
      (fun q => !(strTruthy (findFolderIdForParticipant m q.nama))) := by
    apply List.mem_filter.mpr
    exact ⟨hpf, by simp [hfe]⟩
  refine ⟨?_, ?_, hpf, ?_, ?_, ?_⟩
  · intro st' p'
    by_cases h : strTruthy (findFolderIdForParticipant m p'.nama)
    · rw [buildStep_truthy w m ts st' p' h]
    · rw [buildStep_falsy w m ts st' p' (by simpa using h)]
  · intro st' r ts'
    by_cases h : r.success <;> simp [handleWorkerResult, h]
  · unfold processPhase
    rw [buildPhase_results]
    dsimp only
    apply List.mem_append.mpr
    right
    exact List.mem_map.mpr ⟨p, hpfalsy, rfl⟩
  · have := List.length_pos.mpr (List.ne_nil_of_mem hpfalsy)
    unfold falsyCount
    omega
  · unfold processPhase
    dsimp only
    obtain ⟨e1, e2, e3, e4, e5⟩ := buildPhase_counts w m ts
      (filterParticipants cached st.processedParticipants)
      { st with stats := { st.stats with
          total := ((filterParticipants cached st.processedParticipants).length : Int) } }
      (by dsimp only; omega) (by dsimp only; omega) (by dsimp only; omega)
      (by dsimp only; omega) (by dsimp only; omega) (by dsimp only; omega)
      (by dsimp only; omega)
    rw [e1, e2]
    dsimp only
    omega

/-- C10 witness: the amended statement at a concrete fresh run over one
no-folder recipient — its `NO_FOLDER` result is recorded (again). -/
theorem c10_no_folder_not_marked_amended_witness :
    noFolderResult ⟨2, "alice".toList, "a@x".toList, false, []⟩ "T".toList ∈
      (processPhase 16 [] "T".toList [⟨2, "alice".toList, "a@x".toList, false, []⟩]
        freshState).shareResults :=
  (c10_no_folder_not_marked_amended 16 [] "T".toList
    [⟨2, "alice".toList, "a@x".toList, false, []⟩] freshState
    ⟨2, "alice".toList, "a@x".toList, false, []⟩
    (by decide) rfl rfl (by decide) (by decide) (by decide) (by decide)
    (by decide) (by decide) (by decide) (by decide)).2.2.2.1

/-! ## Claim C8 -/

/-- Model of `updateLocalCache` changes only the `isShared`/`lastLog` fields: the
(row, e-mail) identity of every entry is preserved. -/
theorem updateLocalCache_pairs (ts : Str) (cache : List Participant) (p : Participant) :
    (updateLocalCache ts cache p).map (fun q => (q.row, q.email)) =
      cache.map (fun q => (q.row, q.email)) := by
  induction cache with
  | nil => rfl
  | cons q rest ih =>
    by_cases h : shareMatch q p
    · simp [updateLocalCache, h, setSharedEntry]
    · simp [updateLocalCache, h, ih]

/-- When the cache rows have pairwise-distinct (row, e-mail) pairs, the
first-match update of `updateLocalCache` coincides with updating every
matching entry. -/
theorem updateLocalCache_eq_map (ts : Str) (cache : List Participant) (p : Participant)
    (hnd : (cache.map (fun q => (q.row, q.email))).Nodup) :
    updateLocalCache ts cache p =
      cache.map (fun q => if shareMatch q p then setSharedEntry ts q else q) := by
  induction cache with
  | nil => rfl
  | cons q rest ih =>
    simp only [List.map_cons, List.nodup_cons] at hnd
    obtain ⟨hq, hrest⟩ := hnd
    by_cases h : shareMatch q p
    · rw [updateLocalCache, if_pos h, List.map_cons, if_pos h]
      congr 1
      have hnone : ∀ r ∈ rest, shareMatch r p = false := by
        intro r hr
        by_contra hc
        rw [Bool.not_eq_false] at hc
        apply hq
        have hr2 : r.row = q.row ∧ r.email = q.email := by
          simp only [shareMatch, Bool.and_eq_true, beq_iff_eq] at h hc
          exact ⟨hc.1.trans h.1.symm, hc.2.trans h.2.symm⟩
        exact List.mem_map.mpr ⟨r, hr, by rw [hr2.1, hr2.2]⟩
      symm
      calc rest.map (fun r => if shareMatch r p then setSharedEntry ts r else r)
          = rest.map id := List.map_congr_left (fun r hr => by rw [hnone r hr]; rfl)
        _ = rest := List.map_id rest
    · rw [updateLocalCache, if_neg h, List.map_cons, if_neg h, ih hrest]

/-- Folding success updates over a duplicate-free cache: every entry of
the final cache descends from a cache entry with the same identity, and
an entry still unshared at the end was unshared initially and matched by
none of the updated participants. -/
theorem foldl_updateLocalCache_unshared (ts : Str) (l : List Participant) :
    ∀ cache : List Participant,
    (cache.map (fun q => (q.row, q.email))).Nodup →
    ∀ q' ∈ List.foldl (updateLocalCache ts) cache l,
      ∃ q ∈ cache, q.row = q'.row ∧ q.email = q'.email ∧ q.nama = q'.nama ∧
        (q'.isShared = false →
          q.isShared = false ∧ ∀ r ∈ l, shareMatch q r = false) := by
  induction l with
  | nil =>
    intro cache _ q' hq'
    exact ⟨q', hq', rfl, rfl, rfl, fun h => ⟨h, by simp⟩⟩
  | cons r0 l ih =>
    intro cache hnd q' hq'
    have hnd' : ((updateLocalCache ts cache r0).map (fun q => (q.row, q.email))).Nodup := by
      rw [updateLocalCache_pairs]; exact hnd
    obtain ⟨q1, hq1mem, er, ee, en, himp⟩ :=
      ih (updateLocalCache ts cache r0) hnd' q' hq'
    rw [updateLocalCache_eq_map ts cache r0 hnd] at hq1mem
    obtain ⟨q, hqmem, hfq⟩ := List.mem_map.mp hq1mem
    by_cases hm : shareMatch q r0
    · rw [if_pos hm] at hfq
      refine ⟨q, hqmem, ?_, ?_, ?_, ?_⟩
      · rw [← er, ← hfq]; rfl
      · rw [← ee, ← hfq]; rfl
      · rw [← en, ← hfq]; rfl
      · intro hq'un
        exfalso
        have h1 := (himp hq'un).1
        rw [← hfq] at h1
        simp [setSharedEntry] at h1
    · rw [if_neg hm] at hfq
      subst hfq
      refine ⟨q, hqmem, er, ee, en, ?_⟩
      intro hq'un
      obtain ⟨h1, h2⟩ := himp hq'un
      refine ⟨h1, ?_⟩
      intro r hr
      rcases List.mem_cons.mp hr with hr0 | hr'
      · rw [hr0]
        exact Bool.not_eq_true _ ▸ (by simpa using hm)
      · exact h2 r hr'

/-- C8 counterexample: one recipient with a folder whose grant fails in
the first run.  The run still completes cleanly (grant failures are
non-fatal and the history file is deleted), the recipient's status cell
stays FALSE, so the second run enqueues the same task again instead of
zero tasks. -/
theorem c8_counterexample :
    secondRunTasks 16 [("alice".toList, "f1".toList)] "T".toList
      [⟨2, "alice".toList, "a@x".toList, false, []⟩] (fun _ => false) ≠ [] := by
  decide

/-- C8 (amended): if the first run is fresh (no resume history), its
input cache has pairwise-distinct (row, e-mail) identities, every
dispatched grant succeeds, and the second run reads the cache the first
run updated, then the second run enqueues zero tasks. -/
theorem c8_resume_idempotent_amended (w : Int) (m : FolderMap) (ts : Str)
    (cache : List Participant) (outcome : ShareTask → Bool)
    (hnd : (cache.map (fun q => (q.row, q.email))).Nodup)
    (hall : ∀ t ∈ firstRunTasks w m ts cache, outcome t = true) :
    secondRunTasks w m ts cache outcome = [] := by
  unfold secondRunTasks
  have hq : (processPhase w m ts (cacheAfterFirstRun w m ts cache outcome)
      freshState).taskQueue =
      (filterParticipants (cacheAfterFirstRun w m ts cache outcome) []).filterMap
        (toTaskOpt m) := by
    unfold processPhase
    rw [buildPhase_queue]
    rfl
  rw [hq, List.filterMap_eq_nil_iff]
  intro q' hq'
  obtain ⟨hq'mem, hpred⟩ := List.mem_filter.mp hq'
  have hq'un : q'.isShared = false := by
    simp only [Bool.and_eq_true, Bool.not_eq_true'] at hpred
    exact hpred.1
  have hq'mem2 : q' ∈ List.foldl (updateLocalCache ts) cache
      (((firstRunTasks w m ts cache).filter outcome).map (fun t => t.participant)) := by
    rw [List.foldl_map]
    unfold cacheAfterFirstRun at hq'mem
    exact hq'mem
  obtain ⟨q, hqmem, er, ee, en, himp⟩ :=
    foldl_updateLocalCache_unshared ts _ cache hnd q' hq'mem2
  obtain ⟨hqun, hnomatch⟩ := himp hq'un
  by_contra hne
  have htr : strTruthy (findFolderIdForParticipant m q'.nama) = true := by
    by_contra h
    rw [Bool.not_eq_true] at h
    apply hne
    simp [toTaskOpt, h]
  have htrq : strTruthy (findFolderIdForParticipant m q.nama) = true := by
    rw [en]; exact htr
  have hqfilter : q ∈ filterParticipants cache [] := by
    apply List.mem_filter.mpr
    exact ⟨hqmem, by simp [hqun]⟩
  have htaskq : toTaskOpt m q =
      some ⟨(findFolderIdForParticipant m q.nama).getD [], q.email, q⟩ := by
    simp [toTaskOpt, htrq]
  have htask : (⟨(findFolderIdForParticipant m q.nama).getD [], q.email, q⟩ : ShareTask) ∈
      firstRunTasks w m ts cache := by
    unfold firstRunTasks processPhase
    rw [buildPhase_queue]
    exact List.mem_filterMap.mpr ⟨q, hqfilter, htaskq⟩
  have hsucc := hall _ htask
  have hqin : q ∈ ((firstRunTasks w m ts cache).filter outcome).map
      (fun t => t.participant) :=
    List.mem_map.mpr ⟨_, List.mem_filter.mpr ⟨htask, hsucc⟩, rfl⟩
  have := hnomatch q hqin
  simp [shareMatch] at this

/-- C8 witness: with one recipient whose grant succeeds, the second run
enqueues nothing. -/
theorem c8_resume_idempotent_amended_witness :
    secondRunTasks 16 [("alice".toList, "f1".toList)] "T".toList
      [⟨2, "alice".toList, "a@x".toList, false, []⟩] (fun _ => true) = [] :=
  c8_resume_idempotent_amended 16 [("alice".toList, "f1".toList)] "T".toList
    [⟨2, "alice".toList, "a@x".toList, false, []⟩] (fun _ => true)
    (by decide) (fun t _ => rfl)

/-! ## Claim C9 -/

set_option maxRecDepth 4000 in
/-- C9 counterexample: a single failed result whose participant name is
150 characters long.  `emitResultsUpdate` sanitizes the `name` field but
never truncates it (only `details` passes through `.substring(0, 100)`),
so the payload carries a 150-character free-text string, refuting
"every free-text string ... truncated to at most 100 characters". -/
theorem c9_counterexample :
    ((emitResultsUpdate "N".toList
        [⟨false, [], ⟨2, List.replicate 150 'a', "e@x".toList, false, []⟩, none,
          "NO_FOLDER".toList, [], [], "T".toList⟩]).detailedIssues.map
      (fun e => e.name.length)) = [150] ∧ ¬ ((150 : Nat) ≤ 100) := by
  decide

/-- C9 (amended): every `RESULTS_UPDATE` payload carries at most 50 issue
entries plus at most 5 success-context entries (at most 55 in
`detailedIssues`) and always the explicit `truncatedCount` field (equal to
`totalIssues - 50`, possibly negative); the `name` and `email` fields are
sanitized but not length-truncated, and only `details` is truncated — to
its first 100 characters before sanitization (so its sanitized form may
exceed 100 characters). -/
theorem c9_results_update_amended (now : Str) (results : List ShareResult) :
    (emitResultsUpdate now results).detailedIssues.length ≤ 55 ∧
    ((issuesOf results).take maxIssues).length ≤ 50 ∧
    (emitResultsUpdate now results).truncatedCount =
      ((emitResultsUpdate now results).totalIssues : Int) - 50 ∧
    ∀ e ∈ (emitResultsUpdate now results).detailedIssues,
      ∃ r ∈ latestResultsOf results,
        e.name = sanitizeStr r.participant.nama ∧
        e.email = sanitizeStr r.participant.email ∧
        (e.details = sanitizeStr ((jsOrStr r.details r.error).take 100) ∨
         e.details = "Folder shared successfully".toList) := by
  refine ⟨?_, ?_, rfl, ?_⟩
  · unfold emitResultsUpdate
    dsimp only
    rw [List.length_append, List.length_map, List.length_map]
    have h1 := List.length_take_le maxIssues (issuesOf results)
    have h2 := List.length_take_le 5 (successfulOf results)
    simp only [maxIssues] at h1 ⊢
    omega
  · exact (List.length_take_le _ _).trans (Nat.le_of_eq rfl)
  · intro e he
    unfold emitResultsUpdate at he
    dsimp only at he
    rcases List.mem_append.mp he with h | h
    · obtain ⟨r, hr, rfl⟩ := List.mem_map.mp h
      have hrmem : r ∈ issuesOf results := List.mem_of_mem_take hr
      exact ⟨r, List.mem_of_mem_filter hrmem, rfl, rfl, Or.inl rfl⟩
    · obtain ⟨r, hr, rfl⟩ := List.mem_map.mp h
      have hrmem : r ∈ successfulOf results := List.mem_of_mem_take hr
      exact ⟨r, List.mem_of_mem_filter hrmem, rfl, rfl, Or.inr rfl⟩

/-- C9 witness: the amended per-entry description instantiated at a
concrete payload entry. -/
theorem c9_results_update_amended_witness :
    ∃ r ∈ latestResultsOf
        [⟨false, [], ⟨3, "bob".toList, "b@x".toList, false, []⟩, none,
          "NO_FOLDER".toList, [], [], "T".toList⟩],
      (mkIssueEntry "N".toList
          ⟨false, [], ⟨3, "bob".toList, "b@x".toList, false, []⟩, none,
            "NO_FOLDER".toList, [], [], "T".toList⟩).name =
        sanitizeStr r.participant.nama ∧
      (mkIssueEntry "N".toList
          ⟨false, [], ⟨3, "bob".toList, "b@x".toList, false, []⟩, none,
            "NO_FOLDER".toList, [], [], "T".toList⟩).email =
        sanitizeStr r.participant.email ∧
      ((mkIssueEntry "N".toList
          ⟨false, [], ⟨3, "bob".toList, "b@x".toList, false, []⟩, none,
            "NO_FOLDER".toList, [], [], "T".toList⟩).details =
        sanitizeStr ((jsOrStr r.details r.error).take 100) ∨
       (mkIssueEntry "N".toList
          ⟨false, [], ⟨3, "bob".toList, "b@x".toList, false, []⟩, none,
            "NO_FOLDER".toList, [], [], "T".toList⟩).details =
        "Folder shared successfully".toList) :=
  (c9_results_update_amended "N".toList
      [⟨false, [], ⟨3, "bob".toList, "b@x".toList, false, []⟩, none,
        "NO_FOLDER".toList, [], [], "T".toList⟩]).2.2.2
    (mkIssueEntry "N".toList
      ⟨false, [], ⟨3, "bob".toList, "b@x".toList, false, []⟩, none,
        "NO_FOLDER".toList, [], [], "T".toList⟩)
    (by decide)
